import Mathlib

/-!
Shallow embedding of `Telegram/SourceFiles/mtproto/connection_http.cpp`
(`MTP::internal::HttpConnection`), the HTTP fallback transport of the
MTProto connection layer.

Modelling conventions:
* `mtpPrime` (C++ `int32`) is modelled as `Int`, holding the signed value of
  the 32-bit word; `mtpBuffer` (`QVector<mtpPrime>`) as `List Int`.
* Raw HTTP bodies (`QByteArray`) are `List Nat`, one entry per byte
  (well-formed bodies have every entry `< 256`).
* The x86/amd64 `memcpy` reinterpretation between byte arrays and word
  vectors is little-endian: `toSigned32`/`leWord` decode four bytes into a
  signed 32-bit value and `int32ToBytesLE` encodes it back.
* Qt signal emissions, network posts and request teardown are recorded as an
  explicit `Event` list returned next to the successor state.
* Wall-clock reads (`getms()`) become explicit `now` parameters.
-/

namespace MTProtoHttp

/-- Little-endian unsigned value of four bytes. -/
def leWord (b0 b1 b2 b3 : Nat) : Nat :=
  b0 + 256 * b1 + 65536 * b2 + 16777216 * b3

/-- Signed 32-bit value of an unsigned word below `2^32`. -/
def toSigned32 (u : Nat) : Int :=
  if u < 2147483648 then (u : Int) else (u : Int) - 4294967296

/-- Little-endian byte encoding of a signed 32-bit value. -/
def int32ToBytesLE (v : Int) : List Nat :=
  let u := (v % 4294967296).toNat
  [u % 256, u / 256 % 256, u / 65536 % 256, u / 16777216 % 256]

/-- Memory image of a word vector: each `int32` contributes its four
little-endian bytes (`memcpy` out of an `mtpBuffer`). -/
def wordsToBytes : List Int → List Nat
  | [] => []
  | w :: rest => int32ToBytesLE w ++ wordsToBytes rest

/-- Reinterpretation of a byte array as a word vector (`memcpy` into an
`mtpBuffer`, as in `HttpConnection::handleResponse`); trailing bytes that do
not fill a word are dropped (the caller guarantees there are none). -/
def bytesToWords : List Nat → List Int
  | b0 :: b1 :: b2 :: b3 :: rest => toSigned32 (leWord b0 b1 b2 b3) :: bytesToWords rest
  | _ => []

/-- The `HttpConnection::handleResponse` body: empty input is an empty
buffer; a size that is not a multiple of 4 or is below 8 yields the one-word
buffer `[-500]`; otherwise the bytes are reinterpreted as `size / 4` words. -/
def handleResponse (response : List Nat) : List Int :=
  if response.length = 0 then []
  else if response.length % 4 ≠ 0 ∨ response.length < 8 then [(-500 : Int)]
  else bytesToWords response

theorem wordsToBytes_append (a b : List Int) :
    wordsToBytes (a ++ b) = wordsToBytes a ++ wordsToBytes b := by
  induction a with
  | nil => rfl
  | cons w rest ih => simp [wordsToBytes, ih]

theorem int32ToBytesLE_length (v : Int) : (int32ToBytesLE v).length = 4 := rfl

theorem wordsToBytes_length (l : List Int) : (wordsToBytes l).length = 4 * l.length := by
  induction l with
  | nil => rfl
  | cons w rest ih =>
    simp only [wordsToBytes, List.length_append, int32ToBytesLE_length, ih,
      List.length_cons]
    ring

theorem bytesToWords_length (bytes : List Nat) :
    (bytesToWords bytes).length = bytes.length / 4 := by
  induction bytes using bytesToWords.induct with
  | case1 b0 b1 b2 b3 rest ih =>
    simp only [bytesToWords, List.length_cons, ih]
    omega
  | case2 bytes h =>
    match bytes, h with
    | [], _ => rfl
    | [a], _ => simp [bytesToWords]
    | [a, b], _ => simp [bytesToWords]
    | [a, b, c], _ => simp [bytesToWords]
    | b0 :: b1 :: b2 :: b3 :: rest, h => exact (h b0 b1 b2 b3 rest rfl).elim

theorem int32_roundtrip (b0 b1 b2 b3 : Nat)
    (h0 : b0 < 256) (h1 : b1 < 256) (h2 : b2 < 256) (h3 : b3 < 256) :
    int32ToBytesLE (toSigned32 (leWord b0 b1 b2 b3)) = [b0, b1, b2, b3] := by
  have hu : leWord b0 b1 b2 b3 < 4294967296 := by
    simp only [leWord]; omega
  have hmod : ((toSigned32 (leWord b0 b1 b2 b3)) % 4294967296).toNat
      = leWord b0 b1 b2 b3 := by
    simp only [toSigned32]
    split <;> omega
  have e0 : leWord b0 b1 b2 b3 % 256 = b0 := by simp only [leWord]; omega
  have e1 : leWord b0 b1 b2 b3 / 256 % 256 = b1 := by simp only [leWord]; omega
  have e2 : leWord b0 b1 b2 b3 / 65536 % 256 = b2 := by simp only [leWord]; omega
  have e3 : leWord b0 b1 b2 b3 / 16777216 % 256 = b3 := by simp only [leWord]; omega
  simp only [int32ToBytesLE, hmod, e0, e1, e2, e3]

/-- Reinterpreting a well-formed byte array (length a multiple of 4, every
byte below 256) as words and writing the words back out reproduces the byte
array: `memcpy` keeps the bytes unchanged. -/
theorem wordsToBytes_bytesToWords (bytes : List Nat)
    (hb : ∀ b ∈ bytes, b < 256) (hlen : bytes.length % 4 = 0) :
    wordsToBytes (bytesToWords bytes) = bytes := by
  induction bytes using bytesToWords.induct with
  | case1 b0 b1 b2 b3 rest ih =>
    have h0 : b0 < 256 := hb b0 (by simp)
    have h1 : b1 < 256 := hb b1 (by simp)
    have h2 : b2 < 256 := hb b2 (by simp)
    have h3 : b3 < 256 := hb b3 (by simp)
    have hrest : ∀ b ∈ rest, b < 256 := fun b hbmem => hb b (by simp [hbmem])
    have hlen4 : rest.length % 4 = 0 := by
      simp only [List.length_cons] at hlen
      omega
    simp only [bytesToWords, wordsToBytes, ih hrest hlen4,
      int32_roundtrip b0 b1 b2 b3 h0 h1 h2 h3]
    rfl
  | case2 bytes h =>
    match bytes, h, hb, hlen with
    | [], _, _, _ => rfl
    | [a], _, _, hlen => simp at hlen
    | [a, b], _, _, hlen => simp at hlen
    | [a, b, c], _, _, hlen => simp at hlen
    | b0 :: b1 :: b2 :: b3 :: rest, h, _, _ => exact (h b0 b1 b2 b3 rest rfl).elim

/-- Connection status, `AbstractConnection::Status`; a fresh connection
starts out `Connecting`. -/
inductive Status
  | Connecting
  | Ready
  | Finished
deriving DecidableEq, Repr

/-- Opaque identifier of a `QNetworkReply` handle tracked in `_requests`. -/
abbrev Handle := Nat

/-- The generic sentinel `kErrorCodeOther`. Modelled from the spec: the
constant is declared in `connection_abstract.h`, outside this translation
unit; the spec only calls it "the generic sentinel (other error)", and no
claim depends on its concrete value. -/
def kErrorCodeOther : Int := -499

/-- The forced HTTP port `kForceHttpPort`. -/
def kForceHttpPort : Nat := 80

/-- Observable actions of one operation, in program order: network posts
(`_manager.post`, with the request URL, the declared content length and the
body bytes), the Qt signals `error`, `connected` and `receivedData`, and the
per-reply teardown calls `abort` and `deleteLater`. -/
inductive Event
  | post (requestUrl : String) (contentLength : Nat) (body : List Nat)
  | error (code : Int)
  | connected
  | receivedData
  | abort (h : Handle)
  | deleteLater (h : Handle)
deriving DecidableEq, Repr

/-- Signals surfaced to the owning session (`emit ...` in the source);
`post`, `abort` and `deleteLater` are network/teardown activity, not
notifications. -/
def isNotification : Event → Bool
  | Event.error _ => true
  | Event.connected => true
  | Event.receivedData => true
  | _ => false

/-- Teardown loop of `disconnectFromServer`: each tracked request is
aborted, then scheduled for deletion, in order. -/
def cancelEvents : List Handle → List Event
  | [] => []
  | h :: rest => Event.abort h :: Event.deleteLater h :: cancelEvents rest

/-- The `QNetworkReply::NetworkError` codes named in the source's `switch`,
plus `NoError` for successful completion. -/
inductive NetworkError
  | NoError
  | ConnectionRefusedError
  | RemoteHostClosedError
  | HostNotFoundError
  | TimeoutError
  | OperationCanceledError
  | SslHandshakeFailedError
  | TemporaryNetworkFailureError
  | NetworkSessionFailedError
  | BackgroundRequestNotAllowedError
  | UnknownNetworkError
  | ProxyConnectionRefusedError
  | ProxyConnectionClosedError
  | ProxyNotFoundError
  | ProxyTimeoutError
  | ProxyAuthenticationRequiredError
  | UnknownProxyError
  | ContentAccessDenied
  | ContentOperationNotPermittedError
  | ContentNotFoundError
  | AuthenticationRequiredError
  | ContentReSendError
  | UnknownContentError
  | ProtocolUnknownError
  | ProtocolInvalidOperationError
  | ProtocolFailure
deriving DecidableEq, Repr

/-- External collaborators of the connection, outside this translation
unit. Modelled from the spec: `preparePQFake` is the protocol codec's
`buildHandshakeProbe(nonce) -> Frame`; `readPQFakeReply` is
`parseHandshakeResponse(Frame) -> nonce or ParseError` (its exception is an
`Option.none`); `is_ipv6` is the address classifier `qthelp::is_ipv6`
deciding whether the host string is an IPv6 literal. -/
structure Env where
  preparePQFake : Int → List Int
  readPQFakeReply : List Int → Option Int
  is_ipv6 : String → Bool

/-- Mutable state of one `HttpConnection`: lifecycle status, the handshake
nonce `_checkNonce`, the server address `_address`, the tracked in-flight
request set `_requests` (listed in insertion order, duplicate-free by
construction), the inbound frame queue `_receivedQueue`, the probe
time-stamp / handshake latency `_pingTime`, a counter producing fresh reply
handles, and whether `requestFinished` is connected to the manager's
`finished` signal. -/
structure State where
  status : Status
  checkNonce : Int
  address : String
  requests : List Handle
  receivedQueue : List (List Int)
  pingTime : Int
  nextHandle : Handle
  managerConnected : Bool
deriving DecidableEq, Repr

/-- State of a fresh `HttpConnection` with the given random `_checkNonce`. -/
def initialState (nonce : Int) : State :=
  { status := Status.Connecting
    checkNonce := nonce
    address := ""
    requests := []
    receivedQueue := []
    pingTime := 0
    nextHandle := 0
    managerConnected := false }

/-- The target URL `HttpConnection::url()`:
`http://<address>:80/api`, with the address bracketed when it is an IPv6
literal; the port is always `kForceHttpPort`, never the endpoint's port. -/
def url (env : Env) (address : String) : String :=
  (if env.is_ipv6 address
    then "http://[" ++ address ++ "]"
    else "http://" ++ address)
  ++ ":" ++ toString kForceHttpPort ++ "/api"

/-- QSet-style insertion into `_requests`: no duplicates. -/
def insertRequest (h : Handle) (l : List Handle) : List Handle :=
  if h ∈ l then l else l ++ [h]

/-- QSet-style removal from `_requests`. -/
def removeRequest (h : Handle) (l : List Handle) : List Handle :=
  l.filter (fun x => x ≠ h)

/-- The `HttpConnection::sendData` body. A `Finished` connection drops the
buffer. A buffer under 3 words emits `error(kErrorCodeOther)` without
touching the network. Otherwise one HTTP request is posted whose declared
content length is `(size - 3) * sizeof(mtpPrime)` and whose body is that
many bytes of the buffer's memory starting at word 2
(`QByteArray((const char*)(&buffer[2]), requestSize)`), and the fresh reply
handle is inserted into `_requests`. -/
def sendData (env : Env) (s : State) (buffer : List Int) : State × List Event :=
  if s.status = Status.Finished then (s, [])
  else if buffer.length < 3 then (s, [Event.error kErrorCodeOther])
  else
    let requestSize := (buffer.length - 3) * 4
    let body := (wordsToBytes (buffer.drop 2)).take requestSize
    ({ s with
        requests := insertRequest s.nextHandle s.requests
        nextHandle := s.nextHandle + 1 },
      [Event.post (url env s.address) requestSize body])

/-- The `HttpConnection::disconnectFromServer` body: a no-op when already
`Finished`; otherwise every tracked request is aborted and released, the
tracked set is cleared (`base::take(_requests)`), the status becomes
`Finished` and the manager's `finished` signal is detached. -/
def disconnectFromServer (s : State) : State × List Event :=
  if s.status = Status.Finished then (s, [])
  else
    ({ s with
        status := Status.Finished
        requests := []
        managerConnected := false },
      cancelEvents s.requests)

/-- The `HttpConnection::connectToServer` body: records the address,
attaches `requestFinished` to the manager's `finished` signal, stamps
`_pingTime` with the current clock and sends the fake `req_pq` probe built
over `_checkNonce`; the `port`, `protocolSecret` and `protocolDcId`
arguments are ignored by this transport. -/
def connectToServer (env : Env) (s : State) (address : String) (port : Int)
    (now : Int) : State × List Event :=
  let s1 := { s with address := address, managerConnected := true, pingTime := now }
  sendData env s1 (env.preparePQFake s1.checkNonce)

/-- A completed `QNetworkReply` as `requestFinished` observes it: its
handle, its `error()` attribute, its optional HTTP status code attribute and
the bytes `readAll()` returns. -/
structure Reply where
  handle : Handle
  error : NetworkError
  statusCode : Option Int
  body : List Nat
deriving DecidableEq, Repr

/-- The `HttpConnection::handleError` body: the result starts as
`kErrorCodeOther` and becomes the negated HTTP status code when the reply
carries a valid status attribute; the subsequent `switch` over the failure
category only chooses a log line (see `errorLogClass`) and never touches the
result. -/
def handleError (reply : Reply) : Int :=
  match reply.statusCode with
  | some status => -status
  | none => kErrorCodeOther

/-- The log-line classification of the `switch` in
`HttpConnection::handleError`; diagnostics only, the mapped code ignores
it. -/
def errorLogClass : NetworkError → String
  | NetworkError.ConnectionRefusedError => "connection refused"
  | NetworkError.RemoteHostClosedError => "remote host closed"
  | NetworkError.HostNotFoundError => "host not found"
  | NetworkError.TimeoutError => "timeout"
  | NetworkError.OperationCanceledError => "cancelled"
  | NetworkError.SslHandshakeFailedError
  | NetworkError.TemporaryNetworkFailureError
  | NetworkError.NetworkSessionFailedError
  | NetworkError.BackgroundRequestNotAllowedError
  | NetworkError.UnknownNetworkError => "network error"
  | NetworkError.ProxyConnectionRefusedError
  | NetworkError.ProxyConnectionClosedError
  | NetworkError.ProxyNotFoundError
  | NetworkError.ProxyTimeoutError
  | NetworkError.ProxyAuthenticationRequiredError
  | NetworkError.UnknownProxyError => "proxy error"
  | NetworkError.ContentAccessDenied
  | NetworkError.ContentOperationNotPermittedError
  | NetworkError.ContentNotFoundError
  | NetworkError.AuthenticationRequiredError
  | NetworkError.ContentReSendError
  | NetworkError.UnknownContentError => "content error"
  | NetworkError.ProtocolUnknownError
  | NetworkError.ProtocolInvalidOperationError
  | NetworkError.ProtocolFailure => "protocol error"
  | NetworkError.NoError => ""

/-- The `HttpConnection::requestFinished` body. Nothing happens when already
`Finished`. On a successful reply the handle is removed from `_requests` and
the decoded frame is dispatched: a one-word frame emits its word as an error
code; a longer frame is queued (`Ready`) or checked as the fake `req_pq`
answer (`Connecting`): a matching nonce moves the connection to `Ready`,
turns `_pingTime` into the elapsed latency and emits `connected`; a parse
failure emits `error(kErrorCodeOther)`; a parsed reply with a foreign nonce
is ignored. On a failed reply the error is surfaced through `handleError`
only when the handle was still tracked. -/
def requestFinished (env : Env) (s : State) (reply : Reply) (now : Int) :
    State × List Event :=
  if s.status = Status.Finished then (s, [])
  else if reply.error = NetworkError.NoError then
    let s1 := { s with requests := removeRequest reply.handle s.requests }
    let data := handleResponse reply.body
    if data.length = 1 then
      (s1, [Event.deleteLater reply.handle, Event.error data[0]!])
    else if data.length ≠ 0 then
      if s1.status = Status.Ready then
        ({ s1 with receivedQueue := s1.receivedQueue ++ [data] },
          [Event.deleteLater reply.handle, Event.receivedData])
      else
        match env.readPQFakeReply data with
        | some nonce =>
          if nonce = s1.checkNonce then
            ({ s1 with status := Status.Ready, pingTime := now - s1.pingTime },
              [Event.deleteLater reply.handle, Event.connected])
          else (s1, [Event.deleteLater reply.handle])
        | none =>
          (s1, [Event.deleteLater reply.handle, Event.error kErrorCodeOther])
    else (s1, [Event.deleteLater reply.handle])
  else if reply.handle ∈ s.requests then
    ({ s with requests := removeRequest reply.handle s.requests },
      [Event.deleteLater reply.handle, Event.error (handleError reply)])
  else (s, [Event.deleteLater reply.handle])

/-- `HttpConnection::isConnected`. -/
def isConnected (s : State) : Bool :=
  s.status = Status.Ready

/-- `HttpConnection::pingTime`. -/
def pingTime (s : State) : Int :=
  if isConnected s then s.pingTime else 0

/-- `HttpConnection::usingHttpWait`. -/
def usingHttpWait (s : State) : Bool :=
  true

/-- `HttpConnection::needHttpWait`. -/
def needHttpWait (s : State) : Bool :=
  s.requests.isEmpty

/-- One externally triggered operation on the connection. -/
inductive Op
  | send (buffer : List Int)
  | disconnect
  | connectTo (address : String) (port : Int) (now : Int)
  | finished (reply : Reply) (now : Int)

/-- Dispatch of one operation. -/
def applyOp (env : Env) (s : State) : Op → State × List Event
  | Op.send buffer => sendData env s buffer
  | Op.disconnect => disconnectFromServer s
  | Op.connectTo address port now => connectToServer env s address port now
  | Op.finished reply now => requestFinished env s reply now

/-- One concrete environment: probe construction and reply parsing that
always fail, a classifier that sees no IPv6 literals. Used to instantiate
theorems at concrete inputs. -/
def envA : Env :=
  { preparePQFake := fun _ => []
    readPQFakeReply := fun _ => none
    is_ipv6 := fun _ => false }

/-- A second concrete environment whose reply parser always extracts the
nonce 1. -/
def envB : Env :=
  { preparePQFake := fun _ => []
    readPQFakeReply := fun _ => some 1
    is_ipv6 := fun _ => false }

/-- A concrete connection state with two tracked in-flight requests. -/
def sWit : State :=
  { initialState 0 with requests := [5, 7] }

/-- A concrete 4-word outbound buffer. -/
def bufWit : List Int := [1, 2, 3, 4]

/-! ### Helper lemmas -/

theorem string_append_assoc (a b c : String) : (a ++ b) ++ c = a ++ (b ++ c) := by
  cases a with | mk la =>
  cases b with | mk lb =>
  cases c with | mk lc =>
  show String.mk ((la ++ lb) ++ lc) = String.mk (la ++ (lb ++ lc))
  rw [List.append_assoc]

theorem cancelEvents_aborted (l : List Handle) :
    (cancelEvents l).filterMap
      (fun e => match e with | Event.abort h => some h | _ => none) = l := by
  induction l with
  | nil => rfl
  | cons h rest ih => simp [cancelEvents, List.filterMap, ih]

theorem cancelEvents_released (l : List Handle) :
    (cancelEvents l).filterMap
      (fun e => match e with | Event.deleteLater h => some h | _ => none) = l := by
  induction l with
  | nil => rfl
  | cons h rest ih => simp [cancelEvents, List.filterMap, ih]

theorem wordsToBytes_drop (n : Nat) (l : List Int) :
    wordsToBytes (l.drop n) = (wordsToBytes l).drop (4 * n) := by
  induction n generalizing l with
  | zero => simp
  | succ n ih =>
    cases l with
    | nil => simp [wordsToBytes]
    | cons w rest =>
      have h4 : 4 * (n + 1) = (int32ToBytesLE w).length + 4 * n := by
        simp only [int32ToBytesLE_length]
        ring
      calc wordsToBytes ((w :: rest).drop (n + 1))
          = (wordsToBytes rest).drop (4 * n) := ih rest
        _ = (int32ToBytesLE w ++ wordsToBytes rest).drop
              ((int32ToBytesLE w).length + 4 * n) := (List.drop_append (4 * n)).symm
        _ = (wordsToBytes (w :: rest)).drop (4 * (n + 1)) := by
              rw [h4]; simp [wordsToBytes]

/-- The per-step status order of the lifecycle: `Connecting` may stay or
advance anywhere, `Ready` may stay or finish, `Finished` is terminal. -/
def statusAdvance : Status → Status → Bool
  | Status.Connecting, _ => true
  | Status.Ready, Status.Ready => true
  | Status.Ready, Status.Finished => true
  | Status.Finished, Status.Finished => true
  | _, _ => false

theorem statusAdvance_refl (a : Status) : statusAdvance a a = true := by
  cases a <;> rfl

theorem statusAdvance_toFinished (a : Status) :
    statusAdvance a Status.Finished = true := by
  cases a <;> rfl

theorem sendData_status (env : Env) (s : State) (buffer : List Int) :
    (sendData env s buffer).1.status = s.status := by
  simp only [sendData]
  split
  · rfl
  · split
    · rfl
    · rfl

theorem requestFinished_status (env : Env) (s : State) (reply : Reply) (now : Int) :
    (requestFinished env s reply now).1.status = s.status ∨
      (s.status = Status.Connecting ∧
        (requestFinished env s reply now).1.status = Status.Ready) := by
  simp only [requestFinished]
  split
  · exact Or.inl rfl
  next hfin =>
    split
    · split
      · exact Or.inl rfl
      · split
        · split
          · exact Or.inl rfl
          next hnotready =>
            split
            next nonce heq =>
              split
              · refine Or.inr ⟨?_, rfl⟩
                cases hstat : s.status with
                | Connecting => rfl
                | Ready => exact absurd hstat hnotready
                | Finished => exact absurd hstat hfin
              · exact Or.inl rfl
            next heq => exact Or.inl rfl
        · exact Or.inl rfl
    · split
      · exact Or.inl rfl
      · exact Or.inl rfl

/-! ### The claims -/

/-- C3: `handleResponse` is total with exactly three cases: empty input
yields the empty frame; a non-empty input whose byte length is not a
multiple of 4 or is below 8 yields the single-word frame `[-500]`; any other
input is reinterpreted unchanged as `length / 4` words (writing the words
back as bytes reproduces the input exactly). -/
theorem handleResponse_cases (bytes : List Nat) :
    (bytes = [] → handleResponse bytes = []) ∧
    (bytes ≠ [] → bytes.length % 4 ≠ 0 ∨ bytes.length < 8 →
      handleResponse bytes = [(-500 : Int)]) ∧
    ((∀ b ∈ bytes, b < 256) → bytes.length % 4 = 0 → 8 ≤ bytes.length →
      (handleResponse bytes).length = bytes.length / 4 ∧
        wordsToBytes (handleResponse bytes) = bytes) := by
  refine ⟨?_, ?_, ?_⟩
  · intro h; subst h; rfl
  · intro hne hbad
    have hlen : ¬bytes.length = 0 := by
      simpa [List.length_eq_zero] using hne
    simp [handleResponse, hlen, hbad]
  · intro hb hmod hge
    have hlen : ¬bytes.length = 0 := by omega
    have hok : ¬(bytes.length % 4 ≠ 0 ∨ bytes.length < 8) := by omega
    simp only [handleResponse, if_neg hlen, if_neg hok]
    exact ⟨bytesToWords_length bytes, wordsToBytes_bytesToWords bytes hb hmod⟩

theorem handleResponse_cases_witness :
    handleResponse [7] = [(-500 : Int)] ∧
    (handleResponse [1, 0, 0, 0, 2, 0, 0, 0]).length = 2 ∧
    wordsToBytes (handleResponse [1, 0, 0, 0, 2, 0, 0, 0])
      = [1, 0, 0, 0, 2, 0, 0, 0] := by
  refine ⟨(handleResponse_cases [7]).2.1 (by decide) (by decide), ?_, ?_⟩
  · have h := (handleResponse_cases [1, 0, 0, 0, 2, 0, 0, 0]).2.2
      (by decide) (by decide) (by decide)
    simpa using h.1
  · exact ((handleResponse_cases [1, 0, 0, 0, 2, 0, 0, 0]).2.2
      (by decide) (by decide) (by decide)).2

/-- C4: the code `handleError` maps a failed reply to the negated HTTP
status code when a status attribute is present and to `kErrorCodeOther`
otherwise; the mapped code is a function of the status attribute alone, so
the failure category never influences it. -/
theorem handleError_spec (r : Reply) :
    (r.statusCode = none → handleError r = kErrorCodeOther) ∧
    (∀ st, r.statusCode = some st → handleError r = -st) ∧
    (∀ r2 : Reply, r.statusCode = r2.statusCode → handleError r = handleError r2) := by
  refine ⟨?_, ?_, ?_⟩
  · intro h; simp [handleError, h]
  · intro st h; simp [handleError, h]
  · intro r2 h; simp [handleError, h]

theorem handleError_spec_witness :
    handleError
        { handle := 0, error := NetworkError.ContentNotFoundError,
          statusCode := some 404, body := [] } = -404 ∧
    handleError
        { handle := 0, error := NetworkError.TimeoutError,
          statusCode := none, body := [] } = kErrorCodeOther :=
  ⟨(handleError_spec _).2.1 404 rfl, (handleError_spec _).1 rfl⟩

/-- C7: a buffer under 3 words sent while the connection is not `Finished`
issues no network request, leaves the state (tracked requests included)
untouched, and synchronously emits exactly one `error(kErrorCodeOther)`
signal. -/
theorem sendData_shortBuffer (env : Env) (s : State) (buffer : List Int)
    (hs : s.status ≠ Status.Finished) (hlen : buffer.length < 3) :
    sendData env s buffer = (s, [Event.error kErrorCodeOther]) := by
  simp [sendData, hs, hlen]

theorem sendData_shortBuffer_witness :
    sendData envA (initialState 0) [1, 2]
      = (initialState 0, [Event.error kErrorCodeOther]) :=
  sendData_shortBuffer envA (initialState 0) [1, 2] (by decide) (by decide)

/-- C8: a failed completion whose handle is no longer tracked is dropped:
the state (status and inbound queue included) is unchanged and no
notification is emitted. -/
theorem requestFinished_untracked (env : Env) (s : State) (reply : Reply)
    (now : Int) (herr : reply.error ≠ NetworkError.NoError)
    (hmem : reply.handle ∉ s.requests) :
    (requestFinished env s reply now).1 = s ∧
    (requestFinished env s reply now).2.filter isNotification = [] := by
  unfold requestFinished
  by_cases hs : s.status = Status.Finished
  · simp [hs]
  · simp [hs, herr, hmem, isNotification]

theorem requestFinished_untracked_witness :
    (requestFinished envA (initialState 0)
        { handle := 3, error := NetworkError.TimeoutError,
          statusCode := none, body := [] } 0).1 = initialState 0 ∧
    (requestFinished envA (initialState 0)
        { handle := 3, error := NetworkError.TimeoutError,
          statusCode := none, body := [] } 0).2.filter isNotification = [] :=
  requestFinished_untracked envA (initialState 0)
    { handle := 3, error := NetworkError.TimeoutError,
      statusCode := none, body := [] } 0 (by decide) (by decide)

/-- C9: the target URL is `http://[host]:80/api` for an IPv6 literal host
and `http://host:80/api` otherwise; the port is the constant 80, and the
port argument handed to `connectToServer` has no effect whatsoever. -/
theorem url_spec (env : Env) (address : String) :
    (url env address
      = if env.is_ipv6 address
          then "http://[" ++ address ++ "]:80/api"
          else "http://" ++ address ++ ":80/api") ∧
    (∀ (s : State) (p1 p2 : Int) (now : Int),
      connectToServer env s address p1 now = connectToServer env s address p2 now) := by
  constructor
  · by_cases h : env.is_ipv6 address
    · simp only [url, h, if_true, string_append_assoc]
      rfl
    · simp only [url, h, if_false, string_append_assoc]
      rfl
  · intro s p1 p2 now
    rfl

/-- C5: every operation (send, disconnect, connect, request completion)
moves the status only along Connecting → Ready → Finished (possibly
skipping Ready, possibly staying put): `Ready` never falls back to
`Connecting` and `Finished` is terminal, as `statusAdvance` encodes. -/
theorem status_monotone (env : Env) (s : State) (op : Op) :
    statusAdvance s.status (applyOp env s op).1.status = true := by
  cases op with
  | send buffer =>
    show statusAdvance s.status (sendData env s buffer).1.status = true
    rw [sendData_status]
    exact statusAdvance_refl _
  | disconnect =>
    show statusAdvance s.status (disconnectFromServer s).1.status = true
    simp only [disconnectFromServer]
    split
    · exact statusAdvance_refl _
    · exact statusAdvance_toFinished _
  | connectTo address port now =>
    show statusAdvance s.status (connectToServer env s address port now).1.status = true
    simp only [connectToServer]
    rw [sendData_status]
    exact statusAdvance_refl _
  | finished reply now =>
    show statusAdvance s.status (requestFinished env s reply now).1.status = true
    rcases requestFinished_status env s reply now with h | ⟨h1, h2⟩
    · rw [h]; exact statusAdvance_refl _
    · rw [h1, h2]; rfl

/-- C10: `needHttpWait` answers true exactly when no request is in flight,
and `usingHttpWait` is constantly true, in every state. -/
theorem httpWait_spec (s : State) :
    (needHttpWait s = true ↔ s.requests = []) ∧ usingHttpWait s = true :=
  ⟨by simp [needHttpWait, List.isEmpty_iff], rfl⟩

/-- C6: `disconnect` is idempotent. Starting from a non-`Finished` state
with the (always duplicate-free) tracked set, the first call aborts and
releases each tracked request exactly once, empties the tracked set and
finishes the connection; the second call is a pure no-op, and every
subsequent `send` is a no-op with no network request and no signal. -/
theorem disconnect_idempotent (env : Env) (s : State)
    (hs : s.status ≠ Status.Finished) (hnodup : s.requests.Nodup) :
    disconnectFromServer (disconnectFromServer s).1 = ((disconnectFromServer s).1, []) ∧
    (disconnectFromServer s).1.status = Status.Finished ∧
    (disconnectFromServer s).1.requests = [] ∧
    (disconnectFromServer s).2.filterMap
        (fun e => match e with | Event.abort h => some h | _ => none) = s.requests ∧
    ((disconnectFromServer s).2.filterMap
        (fun e => match e with | Event.abort h => some h | _ => none)).Nodup ∧
    (disconnectFromServer s).2.filterMap
        (fun e => match e with | Event.deleteLater h => some h | _ => none) = s.requests ∧
    (∀ buffer, sendData env (disconnectFromServer s).1 buffer
        = ((disconnectFromServer s).1, [])) := by
  have hd : disconnectFromServer s =
      ({ s with status := Status.Finished, requests := [], managerConnected := false },
        cancelEvents s.requests) := by
    simp [disconnectFromServer, hs]
  rw [hd]
  refine ⟨by simp [disconnectFromServer], rfl, rfl, ?_, ?_, ?_, ?_⟩
  · exact cancelEvents_aborted s.requests
  · rw [cancelEvents_aborted s.requests]; exact hnodup
  · exact cancelEvents_released s.requests
  · intro buffer
    simp [sendData]

theorem disconnect_idempotent_witness :
    disconnectFromServer (disconnectFromServer sWit).1
        = ((disconnectFromServer sWit).1, []) ∧
    (disconnectFromServer sWit).1.status = Status.Finished ∧
    (disconnectFromServer sWit).1.requests = [] ∧
    (disconnectFromServer sWit).2.filterMap
        (fun e => match e with | Event.abort h => some h | _ => none)
        = sWit.requests ∧
    ((disconnectFromServer sWit).2.filterMap
        (fun e => match e with | Event.abort h => some h | _ => none)).Nodup ∧
    (disconnectFromServer sWit).2.filterMap
        (fun e => match e with | Event.deleteLater h => some h | _ => none)
        = sWit.requests ∧
    (∀ buffer, sendData envA (disconnectFromServer sWit).1 buffer
        = ((disconnectFromServer sWit).1, [])) :=
  disconnect_idempotent envA sWit (by decide) (by decide)

/-- C1 (amended): a buffer of word-length N ≥ 3 sent while not `Finished`
issues exactly one HTTP request whose declared content length and body span
exactly (N − 3) × 4 bytes — the buffer's bytes from word offset 2 up to,
but excluding, the final word; the source drops the 2-word transport header
and the trailing word, not the header alone. -/
theorem sendData_body (env : Env) (s : State) (buffer : List Int)
    (hs : s.status ≠ Status.Finished) (hlen : 3 ≤ buffer.length) :
    (sendData env s buffer).2
      = [Event.post (url env s.address) ((buffer.length - 3) * 4)
          (((wordsToBytes buffer).drop 8).take ((buffer.length - 3) * 4))] ∧
    (((wordsToBytes buffer).drop 8).take ((buffer.length - 3) * 4)).length
      = (buffer.length - 3) * 4 := by
  constructor
  · have hshort : ¬buffer.length < 3 := by omega
    simp only [sendData, if_neg hs, if_neg hshort]
    have hdrop : wordsToBytes (buffer.drop 2) = (wordsToBytes buffer).drop 8 := by
      simpa using wordsToBytes_drop 2 buffer
    rw [hdrop]
  · rw [List.length_take, List.length_drop, wordsToBytes_length]
    omega

theorem sendData_body_witness :
    (sendData envA (initialState 0) bufWit).2
      = [Event.post (url envA (initialState 0).address) ((bufWit.length - 3) * 4)
          (((wordsToBytes bufWit).drop 8).take ((bufWit.length - 3) * 4))] ∧
    (((wordsToBytes bufWit).drop 8).take ((bufWit.length - 3) * 4)).length
      = (bufWit.length - 3) * 4 :=
  sendData_body envA (initialState 0) bufWit (by decide) (by decide)

/-- C1, the claim as the spec words it, is false on the code: sending the
3-word buffer `[0, 0, 0]` issues one request whose body has 0 bytes, not
`(3 − 2) × 4 = 4` bytes. -/
theorem sendData_body_cex :
    (sendData envA (initialState 0) [0, 0, 0]).2.filterMap
        (fun e => match e with
          | Event.post _ _ body => some body.length
          | _ => none) = [0] ∧
    ¬(sendData envA (initialState 0) [0, 0, 0]).2.filterMap
        (fun e => match e with
          | Event.post _ _ body => some body.length
          | _ => none) = [(3 - 2) * 4] := by
  decide

/-- C2 (amended): a successful completion that decodes to a multi-word
frame while the connection is `Connecting` has three outcomes. A frame
parsing to the connection's own `checkNonce` moves the status to `Ready`,
sets the handshake latency to the non-negative elapsed time and emits
exactly one `connected` notification. A frame that fails to parse leaves
the status at `Connecting` and emits `error(kErrorCodeOther)`. A frame that
parses to a foreign nonce leaves the status at `Connecting` and emits no
notification at all — the source only guards the match case and its catch
only sees parse failures. -/
theorem requestFinished_handshake (env : Env) (s : State) (reply : Reply)
    (now : Int) (hs : s.status = Status.Connecting)
    (herr : reply.error = NetworkError.NoError)
    (hlen : 2 ≤ (handleResponse reply.body).length)
    (hnow : s.pingTime ≤ now) :
    (∀ nonce, env.readPQFakeReply (handleResponse reply.body) = some nonce →
        nonce = s.checkNonce →
      (requestFinished env s reply now).1.status = Status.Ready ∧
      (requestFinished env s reply now).1.pingTime = now - s.pingTime ∧
      0 ≤ (requestFinished env s reply now).1.pingTime ∧
      (requestFinished env s reply now).2.filter isNotification
        = [Event.connected]) ∧
    (env.readPQFakeReply (handleResponse reply.body) = none →
      (requestFinished env s reply now).1.status = Status.Connecting ∧
      (requestFinished env s reply now).2.filter isNotification
        = [Event.error kErrorCodeOther]) ∧
    (∀ nonce, env.readPQFakeReply (handleResponse reply.body) = some nonce →
        nonce ≠ s.checkNonce →
      (requestFinished env s reply now).1.status = Status.Connecting ∧
      (requestFinished env s reply now).2.filter isNotification = []) := by
  have hne1 : ¬(handleResponse reply.body).length = 1 := by omega
  have hne0 : (handleResponse reply.body).length ≠ 0 := by omega
  refine ⟨?_, ?_, ?_⟩
  · intro nonce heq hnonce
    refine ⟨?_, ?_, ?_, ?_⟩
    · simp [requestFinished, herr, hne1, hne0, hs, heq, hnonce]
    · simp [requestFinished, herr, hne1, hne0, hs, heq, hnonce]
    · simp only [requestFinished, herr, hne1, hne0, hs, heq, hnonce]
      simp [hs, heq, hnonce, hne1, hne0]
      omega
    · simp [requestFinished, herr, hne1, hne0, hs, heq, hnonce, isNotification]
  · intro heq
    constructor
    · simp [requestFinished, herr, hne1, hne0, hs, heq]
    · simp [requestFinished, herr, hne1, hne0, hs, heq, isNotification]
  · intro nonce heq hnonce
    constructor
    · simp [requestFinished, herr, hne1, hne0, hs, heq, hnonce]
    · simp [requestFinished, herr, hne1, hne0, hs, heq, hnonce, isNotification]

/-- A connection in the middle of its handshake: `checkNonce` 1, probe
stamped at time 2. -/
def sC2 : State := { initialState 1 with pingTime := 2 }

/-- A successful completion carrying the 8-byte body `01 00 00 00 02 00 00
00`, which decodes to the two-word frame `[1, 2]`. -/
def replyC2 : Reply :=
  { handle := 0, error := NetworkError.NoError, statusCode := none,
    body := [1, 0, 0, 0, 2, 0, 0, 0] }

theorem requestFinished_handshake_witness :
    (requestFinished envB sC2 replyC2 7).1.status = Status.Ready ∧
    (requestFinished envB sC2 replyC2 7).1.pingTime = 7 - sC2.pingTime ∧
    0 ≤ (requestFinished envB sC2 replyC2 7).1.pingTime ∧
    (requestFinished envB sC2 replyC2 7).2.filter isNotification
      = [Event.connected] :=
  (requestFinished_handshake envB sC2 replyC2 7 rfl rfl (by decide) (by decide)).1
    1 rfl rfl

/-- C2, the claim as the spec words it, is false on the code: while
`Connecting` (checkNonce 0), a response that parses fine but carries the
foreign nonce 1 leaves the status at `Connecting` yet emits no notification
whatsoever — in particular `error(kErrorCodeOther)` does not fire. -/
theorem requestFinished_handshake_cex :
    (requestFinished envB (initialState 0) replyC2 3).1.status
      = Status.Connecting ∧
    (requestFinished envB (initialState 0) replyC2 3).2.filter isNotification
      = [] ∧
    ¬(requestFinished envB (initialState 0) replyC2 3).2.filter isNotification
      = [Event.error kErrorCodeOther] := by
  decide

end MTProtoHttp
